import Mathlib

/-!
Verification of the authoritative game-state reconciliation backend
(`server.py`): registration, passive income accrual, click-rate admission
control, and server-priced upgrade purchases.

Modelling conventions:
* Python `float` arithmetic on timestamps and costs is modelled by exact
  rationals (`ℚ`); every concrete value exercised below is exactly
  representable in binary floating point, so the models agree there.
* Python `int(x)` (truncation toward zero) is `pyTrunc`.
* The Firestore document is a `Player` record; each `player_doc_ref.update`
  call in the source mutates it immediately, so processing returns the pair
  of the request outcome and the stored document, and an exception raised
  mid-batch keeps all writes issued so far.
-/

attribute [local semireducible] Rat.mul Rat.add Rat.sub Rat.inv Rat.ofScientific

namespace SMD

/-- Python `int()` applied to a real value: truncation toward zero. -/
def pyTrunc (q : ℚ) : Int := if 0 ≤ q then ⌊q⌋ else ⌈q⌉

/-- The fields of a stored `ai_suggested_upgrade` document that
`receive_actions` reads: `id`, `cost`, `ppcIncrease`, `ppsIncrease`. -/
structure AIUpgrade where
  id : String
  cost : Int
  ppcIncrease : Int
  ppsIncrease : Int
deriving DecidableEq

/-- One entry of `SERVER_UPGRADES_META` (server.py lines 240-246). -/
structure UpgradeMeta where
  name : String
  baseCost : ℚ
  costMultiplier : ℚ
  ppcIncrease : Int
  ppsIncrease : Int
deriving DecidableEq

/-- The player's upgrade map `{upgrade_id: level}`, as an association list. -/
abbrev Upgrades := List (String × Nat)

/-- Python `player_upgrades.get(id, 0)`. -/
def getLevel (u : Upgrades) (id : String) : Nat :=
  ((u.find? (fun kv => kv.1 = id)).map (fun kv => kv.2)).getD 0

/-- Python `player_upgrades[id] = l` (replace if present, else insert). -/
def setLevel : Upgrades → String → Nat → Upgrades
  | [], id, l => [(id, l)]
  | (k, v) :: rest, id, l =>
      if k = id then (id, l) :: rest else (k, v) :: setLevel rest id l

/-- A stored player document. `register_player` creates documents without a
`pointsPerClick` field; Firestore's `Increment` on a missing numeric field
treats it as 0, which is how the default is modelled. -/
structure Player where
  name : String
  token : String
  score : Int
  sps : Int
  upgrades : Upgrades
  pointsPerClick : Int
  lastUpdated : ℚ
  aiSuggested : Option AIUpgrade
deriving DecidableEq

/-- The local variables `score`, `sps`, `player_upgrades` that
`receive_actions` mutates while walking the batch. -/
structure GameVars where
  score : Int
  sps : Int
  upgrades : Upgrades
deriving DecidableEq

/-- One element of `payload.actions`: `type`, `data.upgrade_id`,
`data.is_ai_upgrade` (the last two default like Python `dict.get`). -/
structure Action where
  type : String
  upgradeId : Option String := none
  isAi : Bool := false
deriving DecidableEq

/-- The `HTTPException` reasons raised by the modelled endpoints. -/
inductive Err where
  | rateLimited
  | invalidAiUpgrade
  | notEnoughSpanksAi
  | invalidUpgradeId
  | notEnoughSpanks
  | emptyName
deriving DecidableEq

instance {ε α : Type} [DecidableEq ε] [DecidableEq α] :
    DecidableEq (Except ε α) := fun x y =>
  match x, y with
  | .ok a, .ok b =>
      if h : a = b then isTrue (by rw [h])
      else isFalse (by intro hh; cases hh; exact h rfl)
  | .ok _, .error _ => isFalse (by intro h; cases h)
  | .error _, .ok _ => isFalse (by intro h; cases h)
  | .error e, .error f =>
      if h : e = f then isTrue (by rw [h])
      else isFalse (by intro hh; cases hh; exact h rfl)

/-- `sum(1 for a in payload.actions if a.get("type") == "click")`. -/
def clickCount (actions : List Action) : Nat :=
  (actions.filter (fun a => a.type = "click")).length

/-- `SERVER_UPGRADES_META` (server.py lines 240-246). -/
def serverUpgradesMeta : List (String × UpgradeMeta) :=
  [("upgrade1", { name := "היד המהירה", baseCost := 10,
                  costMultiplier := 1.5, ppcIncrease := 1, ppsIncrease := 0 }),
   ("upgrade2", { name := "שדרוג אוטומטי בסיסי", baseCost := 100,
                  costMultiplier := 1.6, ppcIncrease := 0, ppsIncrease := 5 }),
   ("upgrade3", { name := "הצלפה כפולה", baseCost := 500,
                  costMultiplier := 1.7, ppcIncrease := 5, ppsIncrease := 0 }),
   ("upgrade4", { name := "עוזר מקצועי", baseCost := 2000,
                  costMultiplier := 1.8, ppcIncrease := 0, ppsIncrease := 25 }),
   ("upgrade5", { name := "מכה קריטית", baseCost := 10000,
                  costMultiplier := 1.9, ppcIncrease := 20, ppsIncrease := 0 })]

/-- `SERVER_UPGRADES_META.get(uid)` for a string key. -/
def lookupMeta (uid : String) : Option UpgradeMeta :=
  (serverUpgradesMeta.find? (fun kv => kv.1 = uid)).map (fun kv => kv.2)

/-- `SERVER_UPGRADES_META.get(upgrade_id)` where `upgrade_id` may be `None`. -/
def catalogGet : Option String → Option UpgradeMeta
  | none => none
  | some uid => lookupMeta uid

/-- `cost = int(upgrade_meta["baseCost"] * (upgrade_meta["costMultiplier"] ** current_level))`
(server.py line 305). -/
def upgradeCost (m : UpgradeMeta) (level : Nat) : Int :=
  pyTrunc (m.baseCost * m.costMultiplier ^ level)

/-- `passive_earned = int(sps * seconds_passed)` (server.py line 225). -/
def passiveEarned (sps : Int) (seconds_passed : ℚ) : Int :=
  pyTrunc ((sps : ℚ) * seconds_passed)

/-- One `buy_upgrade` action (server.py lines 249-313): returns the updated
local variables (or the raised exception) together with the stored document,
to which the branch's immediate `player_doc_ref.update` calls are applied. -/
def buyStep (ai : Option AIUpgrade) (a : Action) (g : GameVars) (st : Player) :
    Except Err GameVars × Player :=
  if a.isAi then
    match ai with
    | none => (.error .invalidAiUpgrade, st)
    | some u =>
      if a.upgradeId = some u.id then
        if u.cost ≤ g.score then
          let g' : GameVars :=
            { score := g.score - u.cost,
              sps := g.sps + u.ppsIncrease,
              upgrades := setLevel g.upgrades u.id (getLevel g.upgrades u.id + 1) }
          -- update({"pointsPerClick": Increment(ppc_inc)}) then
          -- update({score, sps, upgrades, ai_suggested_upgrade: DELETE_FIELD})
          (.ok g',
           { st with
               pointsPerClick := st.pointsPerClick + u.ppcIncrease,
               score := g'.score, sps := g'.sps, upgrades := g'.upgrades,
               aiSuggested := none })
        else (.error .notEnoughSpanksAi, st)
      else (.error .invalidAiUpgrade, st)
  else
    match a.upgradeId with
    | none => (.error .invalidUpgradeId, st)
    | some uid =>
      match lookupMeta uid with
      | none => (.error .invalidUpgradeId, st)
      | some m =>
        if upgradeCost m (getLevel g.upgrades uid) ≤ g.score then
          -- update({"pointsPerClick": Increment(ppcIncrease)})
          (.ok { score := g.score - upgradeCost m (getLevel g.upgrades uid),
                 sps := g.sps + m.ppsIncrease,
                 upgrades := setLevel g.upgrades uid (getLevel g.upgrades uid + 1) },
           { st with pointsPerClick := st.pointsPerClick + m.ppcIncrease })
        else (.error .notEnoughSpanks, st)

/-- The `for action in payload.actions` loop (server.py lines 248-313);
a raise stops the loop but keeps the stored document's writes so far. -/
def processLoop (ai : Option AIUpgrade) :
    List Action → GameVars → Player → Except Err GameVars × Player
  | [], g, st => (.ok g, st)
  | a :: rest, g, st =>
    if a.type = "buy_upgrade" then
      match buyStep ai a g st with
      | (.ok g', st') => processLoop ai rest g' st'
      | (.error e, st') => (.error e, st')
    else processLoop ai rest g st

/-- The final consolidated write (server.py lines 316-321). -/
def finalWrite (st : Player) (g : GameVars) (now : ℚ) : Player :=
  { st with score := g.score, sps := g.sps, upgrades := g.upgrades,
            lastUpdated := now }

/-- The pipeline of `receive_actions` after passive income has been folded
into the score: click-rate admission check (server.py lines 228-234), click
application (line 236), the purchase loop, and the final write. -/
def afterPassive (p : Player) (actions : List Action) (now : ℚ)
    (score_after_passive : Int) : Except Err Unit × Player :=
  if now - p.lastUpdated > 0 ∧
     (clickCount actions : ℚ) / (now - p.lastUpdated) > 10 then
    (.error .rateLimited, p)
  else
    match processLoop p.aiSuggested actions
        { score := score_after_passive + (clickCount actions : Int),
          sps := p.sps, upgrades := p.upgrades } p with
    | (.ok g, st) => (.ok (), finalWrite st g now)
    | (.error e, st) => (.error e, st)

/-- `POST /game/actions` (server.py lines 204-323): accrue passive income
once at the start, then run the rest of the pipeline with the same
`seconds_passed = now - last_updated`. -/
def receive_actions (p : Player) (actions : List Action) (now : ℚ) :
    Except Err Unit × Player :=
  afterPassive p actions now
    (p.score + passiveEarned p.sps (now - p.lastUpdated))

/-- `new_player_data` (server.py lines 148-156). -/
def newPlayerData (name token : String) (now : ℚ) : Player :=
  { name := name, token := token, score := 0, sps := 0, upgrades := [],
    pointsPerClick := 0, lastUpdated := now, aiSuggested := none }

/-- Python `str.strip()`: drop leading and trailing whitespace. -/
def pyStrip (s : String) : String :=
  ⟨((s.data.dropWhile Char.isWhitespace).reverse.dropWhile Char.isWhitespace).reverse⟩

/-- `POST /register` (server.py lines 127-163): the store is the list of
player documents; `freshToken` stands for the generated `uuid4` token. -/
def register_player (store : List Player) (rawName freshToken : String)
    (now : ℚ) : Except Err (String × String) × List Player :=
  if pyStrip rawName = "" then (.error .emptyName, store)
  else
    match store.find? (fun q => q.name = pyStrip rawName) with
    | some q => (.ok (q.token, q.name), store)
    | none => (.ok (freshToken, pyStrip rawName),
               store ++ [newPlayerData (pyStrip rawName) freshToken now])

/-- The click-rate rejection condition exactly as coded
(server.py lines 232-234). -/
def rateRejects (actions : List Action) (t : ℚ) : Prop :=
  t > 0 ∧ (clickCount actions : ℚ) / t > 10

instance (actions : List Action) (t : ℚ) : Decidable (rateRejects actions t) :=
  instDecidableAnd

/-- Modelled from the spec (§4.1 step 2): the click ceiling the spec
describes, `maxClicks = max(1, floor(secondsPassed * RATE))` with RATE = 10;
stated for comparison with the coded condition `rateRejects`. -/
def specMaxClicks (t : ℚ) : Int := max 1 ⌊t * 10⌋

-- Example builders used in concrete instances below.

def clickA : Action := { type := "click" }

def buyA (uid : String) : Action := { type := "buy_upgrade", upgradeId := some uid }

def buyAiA (uid : String) : Action :=
  { type := "buy_upgrade", upgradeId := some uid, isAi := true }

def basePlayer : Player :=
  { name := "p", token := "tk", score := 0, sps := 0, upgrades := [],
    pointsPerClick := 0, lastUpdated := 0, aiSuggested := none }

def metaX : UpgradeMeta :=
  { name := "x", baseCost := 10, costMultiplier := 1.5,
    ppcIncrease := 1, ppsIncrease := 0 }

/-- The `upgrade1` catalog entry. -/
def u1meta : UpgradeMeta :=
  { name := "היד המהירה", baseCost := 10, costMultiplier := 1.5,
    ppcIncrease := 1, ppsIncrease := 0 }

/-- A player who can afford `upgrade1` once. -/
def pC1 : Player := { basePlayer with score := 10 }

/-- A player holding a cheap AI-suggested upgrade and 5 points. -/
def pC6 : Player :=
  { basePlayer with
    score := 5,
    aiSuggested := some { id := "aix", cost := 1, ppcIncrease := 0, ppsIncrease := 0 } }

/-- A rich player. -/
def pC7 : Player := { basePlayer with score := 100 }

/-- A player whose externally stored AI upgrade carries a negative
`ppsIncrease`. -/
def pC8 : Player :=
  { basePlayer with
    aiSuggested := some { id := "hack", cost := 0, ppcIncrease := 0, ppsIncrease := -1 } }

/-- A player with passive income 3 per second. -/
def pSps3 : Player := { basePlayer with sps := 3 }

/-- A one-player store for the registration claims. -/
def storeW : List Player := [newPlayerData "alice" "tokA" 0]

example : upgradeCost metaX 2 = 22 := by decide

example : (receive_actions basePlayer (List.replicate 11 clickA) 1).1
    = .error .rateLimited := by decide

example : receive_actions { basePlayer with score := 25 } [buyA "upgrade1", buyA "upgrade1"] 0
    = (.ok (), { basePlayer with
                   score := 0, upgrades := [("upgrade1", 2)],
                   pointsPerClick := 2 }) := by decide

-- Helper lemmas

lemma pyTrunc_eq_floor {q : ℚ} (h : 0 ≤ q) : pyTrunc q = ⌊q⌋ := if_pos h

lemma pyTrunc_nonneg {q : ℚ} (h : 0 ≤ q) : 0 ≤ pyTrunc q := by
  rw [pyTrunc_eq_floor h]
  exact Int.le_floor.mpr (by exact_mod_cast h)

lemma passiveEarned_nonneg {sps : Int} {t : ℚ} (hs : 0 ≤ sps) (ht : 0 ≤ t) :
    0 ≤ passiveEarned sps t :=
  pyTrunc_nonneg (mul_nonneg (by exact_mod_cast hs) ht)

/-- No branch of the purchase step touches the stored `last_updated` field. -/
lemma buyStep_lastUpdated (ai : Option AIUpgrade) (a : Action) (g : GameVars)
    (st : Player) : ((buyStep ai a g st).2).lastUpdated = st.lastUpdated := by
  unfold buyStep
  repeat' split
  all_goals rfl

/-- A non-AI purchase step only writes `pointsPerClick` on the stored
document: score, sps, upgrades, aiSuggested, lastUpdated are untouched. -/
lemma buyStep_noAI (ai : Option AIUpgrade) (a : Action) (g : GameVars)
    (st : Player) (hA : a.isAi = false) :
    ((buyStep ai a g st).2).score = st.score ∧
    ((buyStep ai a g st).2).sps = st.sps ∧
    ((buyStep ai a g st).2).upgrades = st.upgrades ∧
    ((buyStep ai a g st).2).aiSuggested = st.aiSuggested ∧
    ((buyStep ai a g st).2).lastUpdated = st.lastUpdated := by
  unfold buyStep
  rw [hA]
  simp only [Bool.false_eq_true, if_false]
  repeat' split
  all_goals exact ⟨rfl, rfl, rfl, rfl, rfl⟩

/-- The purchase loop never raises the rate-limit error. -/
lemma buyStep_ne_rate (ai : Option AIUpgrade) (a : Action) (g : GameVars)
    (st : Player) : (buyStep ai a g st).1 ≠ .error .rateLimited := by
  unfold buyStep
  repeat' split
  all_goals intro h
  all_goals cases h

lemma processLoop_ne_rate (ai : Option AIUpgrade) :
    ∀ (acts : List Action) (g : GameVars) (st : Player),
      (processLoop ai acts g st).1 ≠ .error .rateLimited := by
  intro acts
  induction acts with
  | nil => intro g st h; cases h
  | cons a rest ih =>
      intro g st
      by_cases h : a.type = "buy_upgrade"
      · have hb := buyStep_ne_rate ai a g st
        rcases hbs : buyStep ai a g st with ⟨r, st'⟩
        rw [hbs] at hb
        cases r with
        | ok g' => simp only [processLoop, if_pos h, hbs]; exact ih g' st'
        | error e => simp only [processLoop, if_pos h, hbs]; exact hb
      · simp only [processLoop, if_neg h]; exact ih g st

lemma processLoop_lastUpdated (ai : Option AIUpgrade) :
    ∀ (acts : List Action) (g : GameVars) (st : Player),
      ((processLoop ai acts g st).2).lastUpdated = st.lastUpdated := by
  intro acts
  induction acts with
  | nil => intro g st; rfl
  | cons a rest ih =>
      intro g st
      by_cases h : a.type = "buy_upgrade"
      · have hb := buyStep_lastUpdated ai a g st
        rcases hbs : buyStep ai a g st with ⟨r, st'⟩
        rw [hbs] at hb
        cases r with
        | ok g' =>
            simp only [processLoop, if_pos h, hbs]
            rw [ih g' st']; exact hb
        | error e => simp only [processLoop, if_pos h, hbs]; exact hb
      · simp only [processLoop, if_neg h]; exact ih g st

/-- If no action of the batch is an AI purchase, the loop leaves the stored
score, sps, upgrades and aiSuggested untouched (only `pointsPerClick`
increments are written mid-loop). -/
lemma processLoop_noAI (ai : Option AIUpgrade) :
    ∀ (acts : List Action) (g : GameVars) (st : Player),
      (∀ a ∈ acts, a.type = "buy_upgrade" → a.isAi = false) →
      ((processLoop ai acts g st).2).score = st.score ∧
      ((processLoop ai acts g st).2).sps = st.sps ∧
      ((processLoop ai acts g st).2).upgrades = st.upgrades ∧
      ((processLoop ai acts g st).2).aiSuggested = st.aiSuggested := by
  intro acts
  induction acts with
  | nil => intro g st _; exact ⟨rfl, rfl, rfl, rfl⟩
  | cons a rest ih =>
      intro g st hno
      by_cases h : a.type = "buy_upgrade"
      · have hA : a.isAi = false := hno a (List.mem_cons_self a rest) h
        have hb := buyStep_noAI ai a g st hA
        rcases hbs : buyStep ai a g st with ⟨r, st'⟩
        rw [hbs] at hb
        have hrest : ∀ x ∈ rest, x.type = "buy_upgrade" → x.isAi = false :=
          fun x hx => hno x (List.mem_cons_of_mem a hx)
        cases r with
        | ok g' =>
            simp only [processLoop, if_pos h, hbs]
            have hi := ih g' st' hrest
            exact ⟨hi.1.trans hb.1, hi.2.1.trans hb.2.1,
                   hi.2.2.1.trans hb.2.2.1, hi.2.2.2.trans hb.2.2.2.1⟩
        | error e =>
            simp only [processLoop, if_pos h, hbs]
            exact ⟨hb.1, hb.2.1, hb.2.2.1, hb.2.2.2.1⟩
      · simp only [processLoop, if_neg h]
        exact ih g st (fun x hx => hno x (List.mem_cons_of_mem a hx))

/-- Every catalog entry grants a non-negative passive-income increase. -/
lemma catalog_pps_nonneg : ∀ kv ∈ serverUpgradesMeta, 0 ≤ kv.2.ppsIncrease := by
  decide

lemma lookupMeta_pps_nonneg {uid : String} {m : UpgradeMeta}
    (h : lookupMeta uid = some m) : 0 ≤ m.ppsIncrease := by
  unfold lookupMeta at h
  rcases hf : List.find? (fun kv => kv.1 = uid) serverUpgradesMeta with _ | kv
  · rw [hf] at h; cases h
  · rw [hf] at h
    injection h with h
    exact h ▸ catalog_pps_nonneg kv (List.mem_of_find?_eq_some hf)

/-- A successful purchase step keeps the running score and sps non-negative,
provided any stored AI upgrade has a non-negative `ppsIncrease`. -/
lemma buyStep_ok_nonneg {ai : Option AIUpgrade} {a : Action} {g g' : GameVars}
    {st st' : Player} (hbs : buyStep ai a g st = (.ok g', st'))
    (_hs : 0 ≤ g.score) (hp : 0 ≤ g.sps)
    (hai : ∀ u, ai = some u → 0 ≤ u.ppsIncrease) :
    0 ≤ g'.score ∧ 0 ≤ g'.sps := by
  cases hA : a.isAi with
  | true =>
      cases ai with
      | none => simp [buyStep, hA] at hbs
      | some u =>
          by_cases hid : a.upgradeId = some u.id
          · by_cases hcost : u.cost ≤ g.score
            · simp only [buyStep, hA, hid, if_pos hcost, if_true,
                Prod.mk.injEq, Except.ok.injEq] at hbs
              obtain ⟨h1, _⟩ := hbs
              subst h1
              exact ⟨sub_nonneg.mpr hcost, add_nonneg hp (hai u rfl)⟩
            · simp [buyStep, hA, hid, if_neg hcost] at hbs
          · simp [buyStep, hA, hid] at hbs
  | false =>
      rcases huid : a.upgradeId with _ | uid
      · simp [buyStep, hA, huid] at hbs
      · rcases hm : lookupMeta uid with _ | m
        · simp [buyStep, hA, huid, hm] at hbs
        · by_cases hcost : upgradeCost m (getLevel g.upgrades uid) ≤ g.score
          · simp only [buyStep, hA, huid, hm, if_pos hcost, Bool.false_eq_true,
              if_false, Prod.mk.injEq, Except.ok.injEq] at hbs
            obtain ⟨h1, _⟩ := hbs
            subst h1
            exact ⟨sub_nonneg.mpr hcost, add_nonneg hp (lookupMeta_pps_nonneg hm)⟩
          · simp [buyStep, hA, huid, hm, if_neg hcost] at hbs

lemma processLoop_ok_nonneg (ai : Option AIUpgrade)
    (hai : ∀ u, ai = some u → 0 ≤ u.ppsIncrease) :
    ∀ (acts : List Action) (g : GameVars) (st : Player) (g' : GameVars)
      (st' : Player), processLoop ai acts g st = (.ok g', st') →
      0 ≤ g.score → 0 ≤ g.sps → 0 ≤ g'.score ∧ 0 ≤ g'.sps := by
  intro acts
  induction acts with
  | nil => intro g st g' st' h hs hp; cases h; exact ⟨hs, hp⟩
  | cons a rest ih =>
      intro g st g' st' h hs hp
      by_cases hbuy : a.type = "buy_upgrade"
      · rcases hbs : buyStep ai a g st with ⟨r, st₁⟩
        cases r with
        | ok g₁ =>
            simp only [processLoop, if_pos hbuy, hbs] at h
            have hg₁ := buyStep_ok_nonneg hbs hs hp hai
            exact ih g₁ st₁ g' st' h hg₁.1 hg₁.2
        | error e =>
            simp only [processLoop, if_pos hbuy, hbs] at h
            cases h
      · simp only [processLoop, if_neg hbuy] at h
        exact ih g st g' st' h hs hp

/-- Actions that are not `buy_upgrade` are skipped by the loop. -/
lemma processLoop_skip (ai : Option AIUpgrade) :
    ∀ (pre : List Action) (rest : List Action) (g : GameVars) (st : Player),
      (∀ a ∈ pre, a.type ≠ "buy_upgrade") →
      processLoop ai (pre ++ rest) g st = processLoop ai rest g st := by
  intro pre
  induction pre with
  | nil => intro rest g st _; rfl
  | cons a pre' ih =>
      intro rest g st hno
      have h : a.type ≠ "buy_upgrade" := hno a (List.mem_cons_self a pre')
      simp only [List.cons_append, processLoop, if_neg h]
      exact ih rest g st (fun x hx => hno x (List.mem_cons_of_mem a hx))

lemma clickCount_replicate (n : Nat) :
    clickCount (List.replicate n clickA) = n := by
  induction n with
  | zero => rfl
  | succ k ih =>
      simp only [clickCount, List.replicate_succ, List.filter_cons] at ih ⊢
      rw [if_pos (by decide)]
      simp [ih]

/-- A regular purchase whose identifier misses the catalog raises
"Invalid upgrade ID" and writes nothing. -/
lemma buyStep_unknown (ai : Option AIUpgrade) (a : Action) (g : GameVars)
    (st : Player) (hA : a.isAi = false) (hcat : catalogGet a.upgradeId = none) :
    buyStep ai a g st = (.error .invalidUpgradeId, st) := by
  rcases huid : a.upgradeId with _ | uid
  · simp [buyStep, hA, huid]
  · have hm : lookupMeta uid = none := by
      rw [huid] at hcat; exact hcat
    simp [buyStep, hA, huid, hm]

-- Claim theorems

/-- Claim C2, counterexample: with `secondsPassed = 1/20` a batch holding a
single click is rejected by the coded rate check (`1 / (1/20) = 20 > 10`),
while the claimed ceiling `max(1, floor(secondsPassed * 10)) = 1` would admit
it, so the claimed "exactly when" equivalence is false at this input. -/
theorem C2_counterexample :
    (receive_actions basePlayer [clickA] (1/20)).1 = .error .rateLimited ∧
    clickCount [clickA] = 1 ∧
    ¬ ((clickCount [clickA] : Int) >
        specMaxClicks ((1/20 : ℚ) - basePlayer.lastUpdated)) := by
  refine ⟨by decide, by decide, ?_⟩
  simp only [specMaxClicks]
  decide

/-- Claim C2, amended: a batch is rejected with the rate-limit failure exactly
when `secondsPassed > 0` and `clickCount / secondsPassed > 10` (RATE = 10,
no flooring and no minimum-1 allowance); with `secondsPassed = 1` a batch of
11 clicks is rejected with no write, and a batch of 10 clicks (player with
sps = 0) is accepted with score increasing by exactly 10. -/
theorem C2_rate_limit_amended :
    (∀ (p : Player) (acts : List Action) (now : ℚ),
       (receive_actions p acts now).1 = .error .rateLimited ↔
         rateRejects acts (now - p.lastUpdated)) ∧
    receive_actions basePlayer (List.replicate 11 clickA) 1
      = (.error .rateLimited, basePlayer) ∧
    receive_actions basePlayer (List.replicate 10 clickA) 1
      = (.ok (), { basePlayer with score := 10, lastUpdated := 1 }) := by
  refine ⟨?_, by decide, by decide⟩
  intro p acts now
  by_cases hc : now - p.lastUpdated > 0 ∧
      (clickCount acts : ℚ) / (now - p.lastUpdated) > 10
  · constructor
    · intro _; exact hc
    · intro _
      unfold receive_actions afterPassive
      rw [if_pos hc]
  · constructor
    · intro h
      exfalso
      have hne := processLoop_ne_rate p.aiSuggested acts
        { score := p.score + passiveEarned p.sps (now - p.lastUpdated) +
            (clickCount acts : Int),
          sps := p.sps, upgrades := p.upgrades } p
      unfold receive_actions afterPassive at h
      rw [if_neg hc] at h
      split at h
      · simp at h
      · rename_i e st heq
        rw [heq] at hne
        simp only [Except.error.injEq] at h
        exact hne (by simp [h])
    · intro h; exact absurd h hc

/-- Claim C3 (confirmed): the passive income folded into the score equals
`floor(sps * secondsPassed)` (the code's `int()` truncation agrees with the
floor since both factors are non-negative), it is added exactly once, before
the admission check and all per-action effects, and the rest of the pipeline
(`afterPassive`) uses the same `secondsPassed = now - lastUpdated` value. -/
theorem C3_passive_accrual :
    ∀ (p : Player) (acts : List Action) (now : ℚ),
      0 ≤ p.sps → p.lastUpdated ≤ now →
      passiveEarned p.sps (now - p.lastUpdated)
          = ⌊(p.sps : ℚ) * (now - p.lastUpdated)⌋ ∧
      receive_actions p acts now
          = afterPassive p acts now
              (p.score + ⌊(p.sps : ℚ) * (now - p.lastUpdated)⌋) := by
  intro p acts now hs ht
  have h : passiveEarned p.sps (now - p.lastUpdated)
      = ⌊(p.sps : ℚ) * (now - p.lastUpdated)⌋ :=
    pyTrunc_eq_floor (mul_nonneg (by exact_mod_cast hs) (by linarith))
  refine ⟨h, ?_⟩
  unfold receive_actions
  rw [h]

theorem C3_passive_accrual_witness :
    0 ≤ pSps3.sps ∧ pSps3.lastUpdated ≤ (3/2 : ℚ) ∧
    passiveEarned pSps3.sps ((3/2 : ℚ) - pSps3.lastUpdated)
        = ⌊(pSps3.sps : ℚ) * ((3/2 : ℚ) - pSps3.lastUpdated)⌋ ∧
    receive_actions pSps3 [] (3/2)
        = afterPassive pSps3 [] (3/2)
            (pSps3.score + ⌊(pSps3.sps : ℚ) * ((3/2 : ℚ) - pSps3.lastUpdated)⌋) := by
  have h := C3_passive_accrual pSps3 [] (3/2) (by decide) (by decide)
  exact ⟨by decide, by decide, h.1, h.2⟩

/-- Claim C5 (confirmed): the price of an upgrade at owned level L is
`baseCost * costMultiplier^L` computed in exact (rational) arithmetic and
truncated to an integer before the comparison with the score; for `upgrade1`
(`baseCost = 10`, `costMultiplier = 1.5`) the cost is 10 at level 0, 15 at
level 1 and 22 at level 2 (truncation of 22.5). -/
theorem C5_pricing :
    lookupMeta "upgrade1" = some u1meta ∧
    u1meta.baseCost = 10 ∧ u1meta.costMultiplier = 1.5 ∧
    upgradeCost u1meta 0 = 10 ∧ upgradeCost u1meta 1 = 15 ∧
    upgradeCost u1meta 2 = 22 ∧
    (∀ (m : UpgradeMeta) (lvl : Nat),
       upgradeCost m lvl = pyTrunc (m.baseCost * m.costMultiplier ^ lvl)) :=
  ⟨by decide, by decide, by decide, by decide, by decide, by decide,
   fun _ _ => rfl⟩

/-- Claim C9 (confirmed): when `secondsPassed ≤ 0` the click-rate check is
skipped entirely, so a batch of any number of clicks is accepted and each
click still adds one point on top of the passive accrual. -/
theorem C9_no_rate_check_nonpositive_elapsed :
    ∀ (p : Player) (n : Nat) (now : ℚ), now - p.lastUpdated ≤ 0 →
      receive_actions p (List.replicate n clickA) now
        = (.ok (), { p with
            score := p.score + passiveEarned p.sps (now - p.lastUpdated) + (n : Int),
            lastUpdated := now }) := by
  intro p n now ht
  have hc : ¬ (now - p.lastUpdated > 0 ∧
      (clickCount (List.replicate n clickA) : ℚ) / (now - p.lastUpdated) > 10) := by
    rintro ⟨h1, _⟩
    exact absurd h1 (not_lt.mpr ht)
  unfold receive_actions afterPassive
  rw [if_neg hc]
  have hskip := processLoop_skip p.aiSuggested (List.replicate n clickA) []
    { score := p.score + passiveEarned p.sps (now - p.lastUpdated) +
        (clickCount (List.replicate n clickA) : Int),
      sps := p.sps, upgrades := p.upgrades } p
    (by
      intro a ha
      have ha' : a = clickA := List.eq_of_mem_replicate ha
      subst ha'; decide)
  rw [List.append_nil] at hskip
  rw [hskip, clickCount_replicate]
  rfl

theorem C9_witness :
    (0 : ℚ) - basePlayer.lastUpdated ≤ 0 ∧
    receive_actions basePlayer (List.replicate 100 clickA) 0
      = (.ok (), { basePlayer with
          score := basePlayer.score +
            passiveEarned basePlayer.sps (0 - basePlayer.lastUpdated) + (100 : Int),
          lastUpdated := 0 }) :=
  ⟨by decide, C9_no_rate_check_nonpositive_elapsed basePlayer 100 0 (by decide)⟩

/-- Claim C1, counterexample: a batch whose first purchase succeeds and whose
second purchase names an unknown upgrade is rejected, yet the stored record is
not left as it was: the successful purchase already wrote its
`pointsPerClick` increment (server.py line 311) before the failure. -/
theorem C1_counterexample :
    (receive_actions pC1 [buyA "upgrade1", buyA "nope"] 0).1
        = .error .invalidUpgradeId ∧
    ((receive_actions pC1 [buyA "upgrade1", buyA "nope"] 0).2).pointsPerClick
        ≠ pC1.pointsPerClick := by
  decide

/-- Claim C1, amended: a rejected batch never performs the final consolidated
write, so the stored `lastUpdated` is always unchanged, and provided the batch
contains no AI-upgrade purchase the stored `score`, `sps` and `upgrades` are
also unchanged; the stored `pointsPerClick`, however, may already reflect
regular purchases that succeeded earlier in the batch, and a successful AI
purchase would additionally have written score, sps and upgrades mid-batch. -/
theorem C1_rejected_batch_amended :
    ∀ (p : Player) (acts : List Action) (now : ℚ) (e : Err),
      (receive_actions p acts now).1 = .error e →
      ((receive_actions p acts now).2).lastUpdated = p.lastUpdated ∧
      ((∀ a ∈ acts, a.type = "buy_upgrade" → a.isAi = false) →
        ((receive_actions p acts now).2).score = p.score ∧
        ((receive_actions p acts now).2).sps = p.sps ∧
        ((receive_actions p acts now).2).upgrades = p.upgrades) := by
  intro p acts now e herr
  unfold receive_actions afterPassive at herr ⊢
  by_cases hc : now - p.lastUpdated > 0 ∧
      (clickCount acts : ℚ) / (now - p.lastUpdated) > 10
  · rw [if_pos hc]
    exact ⟨rfl, fun _ => ⟨rfl, rfl, rfl⟩⟩
  · rw [if_neg hc] at herr ⊢
    have hlu := processLoop_lastUpdated p.aiSuggested acts
      { score := p.score + passiveEarned p.sps (now - p.lastUpdated) +
          (clickCount acts : Int),
        sps := p.sps, upgrades := p.upgrades } p
    split at herr
    · simp at herr
    · rename_i e' st heq
      rw [heq] at hlu
      refine ⟨hlu, fun hno => ?_⟩
      have hco := processLoop_noAI p.aiSuggested acts
        { score := p.score + passiveEarned p.sps (now - p.lastUpdated) +
            (clickCount acts : Int),
          sps := p.sps, upgrades := p.upgrades } p hno
      rw [heq] at hco
      exact ⟨hco.1, hco.2.1, hco.2.2.1⟩

theorem C1_rejected_batch_amended_witness :
    ((receive_actions basePlayer [buyA "upgrade1"] 0).2).lastUpdated
        = basePlayer.lastUpdated ∧
    ((receive_actions basePlayer [buyA "upgrade1"] 0).2).score = basePlayer.score ∧
    ((receive_actions basePlayer [buyA "upgrade1"] 0).2).sps = basePlayer.sps ∧
    ((receive_actions basePlayer [buyA "upgrade1"] 0).2).upgrades
        = basePlayer.upgrades := by
  have h := C1_rejected_batch_amended basePlayer [buyA "upgrade1"] 0
    .notEnoughSpanks (by decide)
  have h2 := h.2 (by decide)
  exact ⟨h.1, h2.1, h2.2.1, h2.2.2⟩

/-- Claim C4 (confirmed): purchases are applied in batch order, each against
the running score/sps/upgrade state; a successful regular purchase of upgrade
`uid` at current level L charges `upgradeCost` at L, sets the level to L + 1,
and adds the upgrade's `ppsIncrease` to sps (writing its `ppcIncrease` to the
stored `pointsPerClick`); concretely, a batch of two `upgrade1` purchases
with score 25 pays 10 then 15 — the second priced at the level reached by the
first — and ends at score 0, level 2. -/
theorem C4_purchase_order_semantics :
    (∀ (ai : Option AIUpgrade) (a : Action) (g : GameVars) (st : Player)
       (uid : String) (m : UpgradeMeta),
       a.isAi = false → a.upgradeId = some uid → lookupMeta uid = some m →
       upgradeCost m (getLevel g.upgrades uid) ≤ g.score →
       buyStep ai a g st =
         (.ok { score := g.score - upgradeCost m (getLevel g.upgrades uid),
                sps := g.sps + m.ppsIncrease,
                upgrades := setLevel g.upgrades uid (getLevel g.upgrades uid + 1) },
          { st with pointsPerClick := st.pointsPerClick + m.ppcIncrease })) ∧
    (∀ (ai : Option AIUpgrade) (a : Action) (acts : List Action) (g : GameVars)
       (st : Player),
       a.type = "buy_upgrade" →
       processLoop ai (a :: acts) g st =
         match buyStep ai a g st with
         | (.ok g', st') => processLoop ai acts g' st'
         | (.error e, st') => (.error e, st')) ∧
    receive_actions { basePlayer with score := 25 }
        [buyA "upgrade1", buyA "upgrade1"] 0
      = (.ok (), { basePlayer with
                     score := 0, upgrades := [("upgrade1", 2)],
                     pointsPerClick := 2 }) := by
  refine ⟨?_, ?_, by decide⟩
  · intro ai a g st uid m hA huid hm hcost
    simp [buyStep, hA, huid, hm, if_pos hcost]
  · intro ai a acts g st hb
    simp only [processLoop, if_pos hb]

theorem C4_purchase_order_semantics_witness :
    buyStep none (buyA "upgrade1") { score := 20, sps := 7, upgrades := [] }
        basePlayer
      = (.ok { score := 10, sps := 7, upgrades := [("upgrade1", 1)] },
         { basePlayer with pointsPerClick := 1 }) :=
  (C4_purchase_order_semantics.1 none (buyA "upgrade1")
      { score := 20, sps := 7, upgrades := [] } basePlayer "upgrade1" u1meta
      (by decide) (by decide) (by decide) (by decide)).trans (by decide)

/-- Claim C6, counterexample: an insufficient-funds purchase does fail the
batch, but "stored score unchanged" is false in general: an earlier
successful AI-upgrade purchase in the same batch has already written the
reduced score (server.py line 294) before the failing action raises. -/
theorem C6_counterexample :
    (receive_actions pC6 [buyAiA "aix", buyA "upgrade1"] 0).1
        = .error .notEnoughSpanks ∧
    ((receive_actions pC6 [buyAiA "aix", buyA "upgrade1"] 0).2).score
        ≠ pC6.score := by
  decide

/-- Claim C6, amended: a regular purchase whose cost exceeds the running
score raises the "Not enough spanks" validation failure and the batch fails;
the stored score is unchanged provided no AI-upgrade purchase occurs in the
batch (an earlier successful AI purchase has already written the updated
score); e.g. buying `upgrade1` (cost 10) with score 5 is rejected and the
stored record, score 5 included, is untouched. -/
theorem C6_insufficient_funds_amended :
    (∀ (ai : Option AIUpgrade) (a : Action) (g : GameVars) (st : Player)
       (uid : String) (m : UpgradeMeta),
       a.isAi = false → a.upgradeId = some uid → lookupMeta uid = some m →
       g.score < upgradeCost m (getLevel g.upgrades uid) →
       buyStep ai a g st = (.error .notEnoughSpanks, st)) ∧
    (∀ (p : Player) (acts : List Action) (now : ℚ),
       (receive_actions p acts now).1 = .error .notEnoughSpanks →
       (∀ a ∈ acts, a.type = "buy_upgrade" → a.isAi = false) →
       ((receive_actions p acts now).2).score = p.score) ∧
    receive_actions { basePlayer with score := 5 } [buyA "upgrade1"] 0
      = (.error .notEnoughSpanks, { basePlayer with score := 5 }) := by
  refine ⟨?_, ?_, by decide⟩
  · intro ai a g st uid m hA huid hm hcost
    simp [buyStep, hA, huid, hm, if_neg (not_le.mpr hcost)]
  · intro p acts now herr hno
    unfold receive_actions afterPassive at herr ⊢
    by_cases hc : now - p.lastUpdated > 0 ∧
        (clickCount acts : ℚ) / (now - p.lastUpdated) > 10
    · rw [if_pos hc]
    · rw [if_neg hc] at herr ⊢
      split at herr
      · simp at herr
      · rename_i e' st heq
        have hco := processLoop_noAI p.aiSuggested acts
          { score := p.score + passiveEarned p.sps (now - p.lastUpdated) +
              (clickCount acts : Int),
            sps := p.sps, upgrades := p.upgrades } p hno
        rw [heq] at hco
        exact hco.1

theorem C6_insufficient_funds_amended_witness :
    buyStep none (buyA "upgrade1") { score := 5, sps := 0, upgrades := [] }
        basePlayer
      = (.error .notEnoughSpanks, basePlayer) ∧
    ((receive_actions { basePlayer with score := 5 } [buyA "upgrade1"] 0).2).score
      = ({ basePlayer with score := 5 } : Player).score := by
  constructor
  · exact C6_insufficient_funds_amended.1 none (buyA "upgrade1")
      { score := 5, sps := 0, upgrades := [] } basePlayer "upgrade1" u1meta
      (by decide) (by decide) (by decide) (by decide)
  · exact C6_insufficient_funds_amended.2.1 { basePlayer with score := 5 }
      [buyA "upgrade1"] 0 (by decide) (by decide)

/-- Claim C7, counterexample: a batch with an unknown upgrade id is rejected,
but the stored player state is not always left unchanged: a successful
regular purchase earlier in the same batch has already incremented the stored
`pointsPerClick` (server.py line 311). -/
theorem C7_counterexample :
    (receive_actions pC7 [buyA "upgrade1", buyA "zzz"] 0).1
        = .error .invalidUpgradeId ∧
    (receive_actions pC7 [buyA "upgrade1", buyA "zzz"] 0).2 ≠ pC7 := by
  decide

/-- Claim C7, amended: a batch containing a regular purchase whose identifier
misses the catalog is rejected with the "Invalid upgrade ID" validation
failure, and when that purchase is the first `buy_upgrade` action of the
batch (and the rate check passes) the stored player state is left exactly
unchanged; writes issued by purchases succeeding before the unknown one
persist. -/
theorem C7_unknown_upgrade_amended :
    ∀ (p : Player) (pre post : List Action) (b : Action) (now : ℚ),
      (∀ a ∈ pre, a.type ≠ "buy_upgrade") →
      b.type = "buy_upgrade" → b.isAi = false →
      catalogGet b.upgradeId = none →
      ¬ rateRejects (pre ++ b :: post) (now - p.lastUpdated) →
      receive_actions p (pre ++ b :: post) now
        = (.error .invalidUpgradeId, p) := by
  intro p pre post b now hpre hb hA hcat hrate
  have hrate' : ¬ (now - p.lastUpdated > 0 ∧
      (clickCount (pre ++ b :: post) : ℚ) / (now - p.lastUpdated) > 10) := hrate
  unfold receive_actions afterPassive
  rw [if_neg hrate']
  rw [processLoop_skip p.aiSuggested pre (b :: post) _ p hpre]
  simp only [processLoop, if_pos hb, buyStep_unknown p.aiSuggested b _ p hA hcat]

theorem C7_unknown_upgrade_amended_witness :
    receive_actions basePlayer [clickA, buyA "zzz"] 0
      = (.error .invalidUpgradeId, basePlayer) := by
  have h := C7_unknown_upgrade_amended basePlayer [clickA] [] (buyA "zzz") 0
    (by decide) (by decide) (by decide) (by decide) (by decide)
  simpa using h

/-- Claim C8, counterexample: the non-negativity invariant can be broken by an
accepted batch: a stored AI-suggested upgrade with negative `ppsIncrease`
(writable only by the external store, never produced by this code) is bought
at cost 0 and drives the persisted sps below zero. -/
theorem C8_counterexample :
    0 ≤ pC8.score ∧ 0 ≤ pC8.sps ∧ pC8.lastUpdated ≤ 0 ∧
    (receive_actions pC8 [buyAiA "hack"] 0).1 = .ok () ∧
    ((receive_actions pC8 [buyAiA "hack"] 0).2).sps < 0 := by
  decide

/-- Claim C8, amended: starting from a record with `score ≥ 0`, `sps ≥ 0`,
processed at `now ≥ lastUpdated`, and whose stored AI-suggested upgrade (if
any) has a non-negative `ppsIncrease` (as every generated AI upgrade does),
every accepted batch persists a state with `score ≥ 0` and `sps ≥ 0`. -/
theorem C8_invariant_amended :
    ∀ (p : Player) (acts : List Action) (now : ℚ),
      0 ≤ p.score → 0 ≤ p.sps → p.lastUpdated ≤ now →
      (∀ u, p.aiSuggested = some u → 0 ≤ u.ppsIncrease) →
      (receive_actions p acts now).1 = .ok () →
      0 ≤ ((receive_actions p acts now).2).score ∧
      0 ≤ ((receive_actions p acts now).2).sps := by
  intro p acts now h0 h1 ht hai hok
  unfold receive_actions afterPassive at hok ⊢
  by_cases hc : now - p.lastUpdated > 0 ∧
      (clickCount acts : ℚ) / (now - p.lastUpdated) > 10
  · rw [if_pos hc] at hok
    simp at hok
  · rw [if_neg hc] at hok ⊢
    split at hok
    · rename_i g st heq
      have hg₀ : 0 ≤ p.score + passiveEarned p.sps (now - p.lastUpdated) +
          (clickCount acts : Int) :=
        add_nonneg (add_nonneg h0 (passiveEarned_nonneg h1 (by linarith)))
          (Int.natCast_nonneg _)
      have hres := processLoop_ok_nonneg p.aiSuggested hai acts
        { score := p.score + passiveEarned p.sps (now - p.lastUpdated) +
            (clickCount acts : Int),
          sps := p.sps, upgrades := p.upgrades } p g st heq hg₀ h1
      simpa [finalWrite] using hres
    · rename_i e' st heq
      simp at hok

theorem C8_invariant_amended_witness :
    0 ≤ basePlayer.score ∧ 0 ≤ basePlayer.sps ∧ basePlayer.lastUpdated ≤ 1 ∧
    (receive_actions basePlayer [clickA] 1).1 = .ok () ∧
    0 ≤ ((receive_actions basePlayer [clickA] 1).2).score ∧
    0 ≤ ((receive_actions basePlayer [clickA] 1).2).sps := by
  have h := C8_invariant_amended basePlayer [clickA] 1 (by decide) (by decide)
    (by decide) (fun u hu => nomatch hu) (by decide)
  exact ⟨by decide, by decide, by decide, by decide, h.1, h.2⟩

/-- Claim C10 (confirmed): registering a (trimmed, non-empty) name that
already has a record returns that record's token and name and leaves the
store unchanged; registering a fresh name appends exactly one new record with
score 0, sps 0, no upgrades and the freshly generated token. -/
theorem C10_register_existing_or_fresh :
    (∀ (store : List Player) (raw tok : String) (now : ℚ) (q : Player),
       pyStrip raw ≠ "" →
       store.find? (fun r => r.name = pyStrip raw) = some q →
       register_player store raw tok now = (.ok (q.token, q.name), store)) ∧
    (∀ (store : List Player) (raw tok : String) (now : ℚ),
       pyStrip raw ≠ "" →
       store.find? (fun r => r.name = pyStrip raw) = none →
       register_player store raw tok now
         = (.ok (tok, pyStrip raw), store ++ [newPlayerData (pyStrip raw) tok now])) := by
  constructor
  · intro store raw tok now q hne hf
    unfold register_player
    rw [if_neg hne, hf]
  · intro store raw tok now hne hf
    unfold register_player
    rw [if_neg hne, hf]

theorem C10_register_existing_or_fresh_witness :
    register_player storeW "alice" "tokB" 5 = (.ok ("tokA", "alice"), storeW) ∧
    register_player storeW " bob " "tokB" 5
      = (.ok ("tokB", "bob"), storeW ++ [newPlayerData "bob" "tokB" 5]) := by
  constructor
  · exact (C10_register_existing_or_fresh.1 storeW "alice" "tokB" 5
      (newPlayerData "alice" "tokA" 0) (by decide) (by decide)).trans (by decide)
  · exact (C10_register_existing_or_fresh.2 storeW " bob " "tokB" 5
      (by decide) (by decide)).trans (by decide)

end SMD
